import Mathlib

/-!
Verification of the VIPN tunnel-lifecycle-manager specification against the
repository's source.  Strings from the TypeScript/Rust sources are embedded as
`List Char`; JS string primitives (`trim`, `split`, `startsWith`) are modelled
below with the semantics of their JS counterparts.
-/

set_option maxRecDepth 8192

deriving instance DecidableEq for Except

/-- Whitespace test used by JS `String.prototype.trim`, restricted to the
whitespace characters that occur in the inputs at hand. -/
def wsChar (c : Char) : Bool :=
  c = ' ' || c = '\t' || c = '\n' || c = '\r'

/-- Left trim: drop leading whitespace. -/
def trimL (l : List Char) : List Char := l.dropWhile wsChar

/-- Right trim: drop trailing whitespace. -/
def trimR (l : List Char) : List Char := (trimL l.reverse).reverse

/-- JS `String.prototype.trim` on a character list. -/
def trim (l : List Char) : List Char := trimR (trimL l)

/-- JS `String.prototype.split(sep)` for a one-character separator string:
splits at every occurrence of the separator, keeping empty segments. -/
def splitCh (sep : Char) : List Char → List (List Char)
  | [] => [[]]
  | c :: cs =>
    match splitCh sep cs with
    | [] => []
    | h :: t => if c = sep then [] :: h :: t else (c :: h) :: t

/-- Join a list of lines with the `'\n'` separator (inverse of splitting a
newline-free line list). -/
def joinLines : List (List Char) → List Char
  | [] => []
  | [l] => l
  | l :: l' :: ls => l ++ '\n' :: joinLines (l' :: ls)

/-- Fuel-driven digit accumulation for `natToChars`; the fuel always suffices
because a number needs no more digits than its own size. -/
def natToCharsAux : Nat → Nat → List Char
  | 0, _ => []
  | fuel + 1, n =>
    if n < 10 then [Nat.digitChar n]
    else natToCharsAux fuel (n / 10) ++ [Nat.digitChar (n % 10)]

/-- Decimal rendering of a natural number as characters. -/
def natToChars (n : Nat) : List Char := natToCharsAux (n + 1) n

/-- `WireGuardConfig` from src/types/index.ts lines 5-14. -/
structure WireGuardConfig where
  name : List Char
  private_key : List Char
  public_key : List Char
  endpoint : List Char
  allowed_ips : List Char
  dns : Option (List Char)
  address : List Char
  persistent_keepalive : Option Nat
deriving DecidableEq

/-- `ConnectionStatus` from src/types/index.ts lines 27-31. -/
structure ConnectionStatus where
  connected : Bool
  current_config : Option (List Char)
  interface : Option (List Char)
deriving DecidableEq

/-- The initial React state of part_004 lines 13-17. -/
def initialConnectionStatus : ConnectionStatus :=
  { connected := false, current_config := none, interface := none }

/-- The status update performed by `handleConnect` (part_004 line 55):
`{ ...connectionStatus, connected: true, current_config: currentConfig.name }`. -/
def handleConnect (s : ConnectionStatus) (currentConfig : WireGuardConfig) :
    ConnectionStatus :=
  { s with connected := true, current_config := some currentConfig.name }

/-- The status update performed by `handleDisconnect` (part_004 line 69):
`{ ...connectionStatus, connected: false, current_config: null }`. -/
def handleDisconnect (s : ConnectionStatus) : ConnectionStatus :=
  { s with connected := false, current_config := none }

/-- Spec §3 invariant on `ConnectionStatus`: `connected == false` implies both
optional fields are absent; `connected == true` implies both are present. -/
def statusInvariant (s : ConnectionStatus) : Prop :=
  (s.connected = false → s.current_config = none ∧ s.interface = none) ∧
  (s.connected = true → s.current_config.isSome ∧ s.interface.isSome)

instance (s : ConnectionStatus) : Decidable (statusInvariant s) := by
  unfold statusInvariant; exact inferInstance

/-- The placeholder config built at part_004 lines 121-129 before the parsing
loop runs. -/
def initialParsedConfig : WireGuardConfig :=
  { name := "Manual Config".data
    private_key := []
    public_key := []
    endpoint := []
    allowed_ips := "0.0.0.0/0".data
    dns := none
    address := []
    persistent_keepalive := none }

/-- `trimmed.split("=")[1]?.trim() || ""` (part_004 lines 136-142). -/
def eqValueOrEmpty (t : List Char) : List Char :=
  match (splitCh '=' t).get? 1 with
  | none => []
  | some v => trim v

/-- `trimmed.split("=")[1]?.trim()` with no default (part_004 line 144). -/
def eqValueOpt (t : List Char) : Option (List Char) :=
  ((splitCh '=' t).get? 1).map trim

/-- `trimmed.split("=")[1]?.trim() || "0.0.0.0/0"` (part_004 line 146). -/
def eqValueOrDefault (t : List Char) : List Char :=
  match (splitCh '=' t).get? 1 with
  | none => "0.0.0.0/0".data
  | some v => if trim v = [] then "0.0.0.0/0".data else trim v

/-- Branch cascade of part_004 lines 135-147, applied to an already trimmed
line. -/
def processTrimmed (cfg : WireGuardConfig) (t : List Char) : WireGuardConfig :=
  if ("PrivateKey =".data).isPrefixOf t then
    { cfg with private_key := eqValueOrEmpty t }
  else if ("PublicKey =".data).isPrefixOf t then
    { cfg with public_key := eqValueOrEmpty t }
  else if ("Endpoint =".data).isPrefixOf t then
    { cfg with endpoint := eqValueOrEmpty t }
  else if ("Address =".data).isPrefixOf t then
    { cfg with address := eqValueOrEmpty t }
  else if ("DNS =".data).isPrefixOf t then
    { cfg with dns := eqValueOpt t }
  else if ("AllowedIPs =".data).isPrefixOf t then
    { cfg with allowed_ips := eqValueOrDefault t }
  else cfg

/-- Body of the `for (const line of lines)` loop (part_004 lines 133-148):
trim the line, then run the key cascade. -/
def processLine (cfg : WireGuardConfig) (line : List Char) : WireGuardConfig :=
  processTrimmed cfg (trim line)

/-- The config produced by the parsing loop of part_004 lines 131-148 on a
whole input text: split on newlines and fold the loop body over the lines. -/
def parsedOf (text : List Char) : WireGuardConfig :=
  (splitCh '\n' text).foldl processLine initialParsedConfig

/-- Error message of part_004 line 113. -/
def emptyInputError : List Char := "Please enter a config".data

/-- Error message of part_004 line 151. -/
def invalidFormatError : List Char :=
  "Invalid config format. Please provide a valid WireGuard config.".data

/-- `handleApplyManualConfig` (part_004 lines 111-160): reject blank input,
parse, reject when `private_key`, `public_key` or `endpoint` is falsy, and
otherwise install the parsed config. -/
def handleApplyManualConfig (text : List Char) :
    Except (List Char) WireGuardConfig :=
  if (trim text).isEmpty then .error emptyInputError
  else
    let parsedConfig := parsedOf text
    if parsedConfig.private_key.isEmpty || parsedConfig.public_key.isEmpty
        || parsedConfig.endpoint.isEmpty then
      .error invalidFormatError
    else .ok parsedConfig

/-- Modelled from the spec: §4.1 `serialize(config) → text` of ConfigCodec.
The serializer lives in the Rust backend (src-tauri/src/wireguard.rs), which is
not among the provided source files; per the spec it always emits `PrivateKey`,
`Address`, `PublicKey`, `Endpoint`, `AllowedIPs`, emits `DNS` and
`PersistentKeepalive` only when present, and uses the two-section
`Key = Value` layout with `[Interface]`/`[Peer]` markers, one key per line. -/
def serializeLines (c : WireGuardConfig) : List (List Char) :=
  ["[Interface]".data,
   "PrivateKey = ".data ++ c.private_key,
   "Address = ".data ++ c.address]
  ++ (match c.dns with
      | some d => ["DNS = ".data ++ d]
      | none => [])
  ++ ["[Peer]".data,
      "PublicKey = ".data ++ c.public_key,
      "Endpoint = ".data ++ c.endpoint,
      "AllowedIPs = ".data ++ c.allowed_ips]
  ++ (match c.persistent_keepalive with
      | some n => ["PersistentKeepalive = ".data ++ natToChars n]
      | none => [])

/-- Modelled from the spec: the serialized text is the lines joined by
newlines. -/
def serialize (c : WireGuardConfig) : List Char := joinLines (serializeLines c)

/-- Platform capability consumed by the Rust-side `apply_config`/`disconnect`
of IMPLEMENTATION_GUIDE.md (the `WireGuardPlatform` trait). -/
structure WireGuardPlatform where
  is_wireguard_installed : Bool
  apply_config : WireGuardConfig → Except (List Char) (List Char)
  disconnect : List Char → Except (List Char) Unit

/-- `apply_config` from IMPLEMENTATION_GUIDE.md lines 42-59, as a function of
the tracked `ACTIVE_CONNECTION` value (an optional `(interface, config_name)`
pair): installed-check, bring the interface up, then overwrite the tracked
connection. -/
def apply_config (platform : WireGuardPlatform)
    (active : Option (List Char × List Char)) (config : WireGuardConfig) :
    Except (List Char) (List Char) × Option (List Char × List Char) :=
  if !platform.is_wireguard_installed then
    (.error "WireGuard is not installed. Please install WireGuard tools.".data,
     active)
  else
    match platform.apply_config config with
    | .error e => (.error e, active)
    | .ok interface =>
      (.ok ("Connected via ".data ++ interface), some (interface, config.name))

/-- `disconnect` from IMPLEMENTATION_GUIDE.md lines 62-84: when a connection is
tracked, bring it down and clear the tracking; otherwise return the
"No active connection" error. -/
def disconnect (platform : WireGuardPlatform)
    (active : Option (List Char × List Char)) :
    Except (List Char) (List Char) × Option (List Char × List Char) :=
  match active with
  | some ac =>
    match platform.disconnect ac.1 with
    | .error e => (.error e, some ac)
    | .ok _ => (.ok "Disconnected successfully".data, none)
  | none => (.error "No active connection".data, none)

/-- The config type of the earlier App version (part_003 lines 4-12). -/
structure WireGuardConfigV0 where
  interface : List Char
  private_key : List Char
  address : List Char
  dns : List Char
  public_key : List Char
  endpoint : List Char
  allowed_ips : List Char
deriving DecidableEq

/-- The values rendered by part_003's configuration card (lines 150-216); the
last entry is the Private Key row, which shows
`config.private_key.substring(0, 20)` followed by `"..."` (lines 207-214). -/
def configCardValues (c : WireGuardConfigV0) : List (List Char) :=
  [c.interface, c.address, c.dns, c.endpoint, c.allowed_ips, c.public_key,
   c.private_key.take 20 ++ "...".data]

/-- The values rendered by part_004's "Current Config Details" section
(lines 240-272): name, endpoint, address, allowed IPs, DNS when present, and
the public key; the private key is not rendered. -/
def configDetailsValues (c : WireGuardConfig) : List (List Char) :=
  [c.name, c.endpoint, c.address, c.allowed_ips]
  ++ (match c.dns with
      | some d => [d]
      | none => [])
  ++ [c.public_key]

/-- A sample well-formed config used in concrete instantiations. -/
def sampleConfig : WireGuardConfig :=
  { name := "Home".data
    private_key := "k1".data
    public_key := "k2".data
    endpoint := "vpn.example.com:51820".data
    allowed_ips := "0.0.0.0/0".data
    dns := none
    address := "10.0.0.2/24".data
    persistent_keepalive := none }

/-- All value hypotheses needed for a round trip through the parser: the value
is trim-invariant, non-empty, and free of newline and equals characters. -/
def CleanValue (v : List Char) : Prop :=
  trim v = v ∧ v ≠ [] ∧ '\n' ∉ v ∧ '=' ∉ v

instance (v : List Char) : Decidable (CleanValue v) := by
  unfold CleanValue; exact inferInstance

/-- Substring test: does `pat` occur contiguously inside `l`? -/
def containsSeg (pat l : List Char) : Bool :=
  l.tails.any fun s => pat.isPrefixOf s

/-- A manual text with non-empty `PrivateKey`, `PublicKey` and `Endpoint`
lines but no `Address` line at all. -/
def c2Text : List Char :=
  "PrivateKey = k1\nPublicKey = k2\nEndpoint = vpn.example.com:51820".data

/-- The config the parser accepts for `c2Text`: its `address` is empty. -/
def c2Accepted : WireGuardConfig :=
  { initialParsedConfig with
      private_key := "k1".data
      public_key := "k2".data
      endpoint := "vpn.example.com:51820".data }

/-- An otherwise complete text with the `PrivateKey` line omitted. -/
def c3NoPrivText : List Char :=
  "[Interface]\nAddress = 10.0.0.2/24\n\n[Peer]\nPublicKey = k2\nEndpoint = vpn.example.com:51820\nAllowedIPs = 0.0.0.0/0".data

/-- An otherwise complete text with the `PublicKey` line omitted. -/
def c3NoPubText : List Char :=
  "[Interface]\nPrivateKey = k1\nAddress = 10.0.0.2/24\n\n[Peer]\nEndpoint = vpn.example.com:51820\nAllowedIPs = 0.0.0.0/0".data

/-- An otherwise complete text with the `Endpoint` line omitted. -/
def c3NoEndText : List Char :=
  "[Interface]\nPrivateKey = k1\nAddress = 10.0.0.2/24\n\n[Peer]\nPublicKey = k2\nAllowedIPs = 0.0.0.0/0".data

/-- A valid config whose private key ends in a base64 padding `=`. -/
def c4TruncConfig : WireGuardConfig :=
  { sampleConfig with private_key := "abc=".data }

/-- A valid config carrying a keepalive interval. -/
def c4KeepaliveConfig : WireGuardConfig :=
  { sampleConfig with persistent_keepalive := some 25 }

/-- A platform stub whose bring-up always succeeds, deriving the interface
name from the config name. -/
def stubPlatform : WireGuardPlatform :=
  { is_wireguard_installed := true
    apply_config := fun c => .ok ("if-".data ++ c.name)
    disconnect := fun _ => .ok () }

/-- First config applied in the double-connect scenario. -/
def cfgA : WireGuardConfig := { sampleConfig with name := "A".data }

/-- Second config applied in the double-connect scenario. -/
def cfgB : WireGuardConfig := { sampleConfig with name := "B".data }

/-- A full wg-quick text exercising all seven spec-listed keys, including a
`PersistentKeepalive` line. -/
def c7Text : List Char :=
  "[Interface]\nPrivateKey = k1\nAddress = 10.0.0.2/24\nDNS = 1.1.1.1\n\n[Peer]\nPublicKey = k2\nEndpoint = vpn.example.com:51820\nAllowedIPs = 10.0.0.0/8\nPersistentKeepalive = 25".data

/-- What the parser produces for `c7Text`: six keys are stored, the
keepalive line is ignored. -/
def c7Parsed : WireGuardConfig :=
  { name := "Manual Config".data
    private_key := "k1".data
    public_key := "k2".data
    endpoint := "vpn.example.com:51820".data
    allowed_ips := "10.0.0.0/8".data
    dns := some "1.1.1.1".data
    address := "10.0.0.2/24".data
    persistent_keepalive := none }

/-- A legacy-App config holding secret key material. -/
def c8LegacyConfig : WireGuardConfigV0 :=
  { interface := "utun0".data
    private_key := "SECRETSECRETSECRETSECRETSECRET=".data
    address := "10.0.0.2/24".data
    dns := "1.1.1.1".data
    public_key := "PUB".data
    endpoint := "vpn.example.com:51820".data
    allowed_ips := "0.0.0.0/0".data }

/-- The same legacy-App config with a different private key. -/
def c8LegacyConfig2 : WireGuardConfigV0 :=
  { c8LegacyConfig with private_key := "OTHERKEYOTHERKEYOTHERKEYOTHER=".data }

/-- A text whose endpoint is not host:port shaped and whose keys are not
well-formed; it still has non-empty values for the three required keys. -/
def c10Text : List Char :=
  "PrivateKey = x\nPublicKey = y\nEndpoint = garbage-endpoint".data

/-- A round-trip input carrying a keepalive interval, used to instantiate the
amended round-trip theorem. -/
def c4WitnessConfig : WireGuardConfig :=
  { sampleConfig with persistent_keepalive := some 25 }

/-! ### Lemmas about the string machinery -/

theorem splitCh_cons (sep c : Char) (cs : List Char) :
    splitCh sep (c :: cs) =
      match splitCh sep cs with
      | [] => []
      | h :: t => if c = sep then [] :: h :: t else (c :: h) :: t := rfl

theorem splitCh_ne_nil (sep : Char) (l : List Char) : splitCh sep l ≠ [] := by
  induction l with
  | nil => simp [splitCh]
  | cons c cs ih =>
    rw [splitCh_cons]
    rcases h : splitCh sep cs with _ | ⟨x, t⟩
    · exact absurd h ih
    · by_cases hc : c = sep <;> simp [hc]

theorem splitCh_of_not_mem {sep : Char} {l : List Char} (h : sep ∉ l) :
    splitCh sep l = [l] := by
  induction l with
  | nil => rfl
  | cons c cs ih =>
    have hc : c ≠ sep := fun e => h (e ▸ List.mem_cons_self c cs)
    have hcs : sep ∉ cs := fun m => h (List.mem_cons_of_mem _ m)
    rw [splitCh_cons, ih hcs]
    simp [hc]

theorem splitCh_append_sep (sep : Char) (a b : List Char) (h : sep ∉ a) :
    splitCh sep (a ++ sep :: b) = a :: splitCh sep b := by
  induction a with
  | nil =>
    rw [List.nil_append, splitCh_cons]
    rcases hb : splitCh sep b with _ | ⟨x, t⟩
    · exact absurd hb (splitCh_ne_nil sep b)
    · simp
  | cons c cs ih =>
    have hc : c ≠ sep := fun e => h (e ▸ List.mem_cons_self c cs)
    have hcs : sep ∉ cs := fun m => h (List.mem_cons_of_mem _ m)
    rw [List.cons_append, splitCh_cons, ih hcs]
    simp [hc]

theorem joinLines_cons (l l' : List Char) (ls : List (List Char)) :
    joinLines (l :: l' :: ls) = l ++ '\n' :: joinLines (l' :: ls) := rfl

theorem splitCh_joinLines_single {l : List Char} (h : '\n' ∉ l) :
    splitCh '\n' (joinLines [l]) = [l] := splitCh_of_not_mem h

theorem splitCh_joinLines_cons {l : List Char} (l' : List Char)
    (ls : List (List Char)) (h : '\n' ∉ l) :
    splitCh '\n' (joinLines (l :: l' :: ls)) =
      l :: splitCh '\n' (joinLines (l' :: ls)) := by
  rw [joinLines_cons]
  exact splitCh_append_sep '\n' l _ h

theorem trimL_cons_of_neg {c : Char} {l : List Char} (h : wsChar c = false) :
    trimL (c :: l) = c :: l :=
  List.dropWhile_cons_of_neg (by simp [h])

theorem dropWhile_eq_self_head {p : Char → Bool} {l : List Char}
    (h : l.dropWhile p = l) (hne : l ≠ []) :
    ∃ c cs, l = c :: cs ∧ p c = false := by
  rcases l with _ | ⟨c, cs⟩
  · exact absurd rfl hne
  · refine ⟨c, cs, rfl, ?_⟩
    by_contra hc
    have hc' : p c = true := by simpa using hc
    rw [List.dropWhile_cons_of_pos hc'] at h
    have hlen := List.IsSuffix.length_le (List.dropWhile_suffix (l := cs) p)
    rw [h] at hlen
    simp at hlen

theorem trimL_length_le (l : List Char) : (trimL l).length ≤ l.length :=
  List.IsSuffix.length_le (List.dropWhile_suffix wsChar)

theorem trimR_length_le (l : List Char) : (trimR l).length ≤ l.length := by
  unfold trimR
  have h := trimL_length_le l.reverse
  simpa using h

theorem trim_eq_self_parts {l : List Char} (h : trim l = l) :
    trimL l = l ∧ trimR l = l := by
  have hlen : (trimL l).length = l.length := by
    have a := trimR_length_le (trimL l)
    have b := trimL_length_le l
    have c : (trim l).length = l.length := by rw [h]
    unfold trim at c
    omega
  have hL : trimL l = l :=
    List.IsSuffix.eq_of_length (List.dropWhile_suffix wsChar) hlen
  refine ⟨hL, ?_⟩
  unfold trim at h
  rwa [hL] at h

theorem trimR_eq_self_last {l : List Char} (h : trimR l = l) (hne : l ≠ []) :
    ∃ v c, l = v ++ [c] ∧ wsChar c = false := by
  have hrev : l.reverse.dropWhile wsChar = l.reverse := by
    have h' := congrArg List.reverse h
    unfold trimR at h'
    rwa [List.reverse_reverse] at h'
  have hrne : l.reverse ≠ [] := by simpa using hne
  obtain ⟨c, cs, hcons, hws⟩ := dropWhile_eq_self_head hrev hrne
  refine ⟨cs.reverse, c, ?_, hws⟩
  have := congrArg List.reverse hcons
  rw [List.reverse_reverse] at this
  simpa using this

theorem trimR_append_last {l : List Char} {c : Char} (h : wsChar c = false) :
    trimR (l ++ [c]) = l ++ [c] := by
  unfold trimR
  rw [List.reverse_append]
  simp only [List.reverse_cons, List.reverse_nil, List.nil_append,
    List.singleton_append]
  rw [trimL_cons_of_neg h]
  simp

theorem trim_key_line {p v : List Char} (hp : trimL p = p) (hpne : p ≠ [])
    (hv : trim v = v) (hne : v ≠ []) : trim (p ++ v) = p ++ v := by
  obtain ⟨c, r, hpc, hcws⟩ := dropWhile_eq_self_head hp hpne
  obtain ⟨hL, hR⟩ := trim_eq_self_parts hv
  obtain ⟨v', d, hvd, hdws⟩ := trimR_eq_self_last hR hne
  unfold trim
  have h1 : trimL (p ++ v) = p ++ v := by
    rw [hpc, List.cons_append, trimL_cons_of_neg hcws]
  rw [h1, hvd, ← List.append_assoc]
  exact trimR_append_last hdws

theorem trim_space_cons {v : List Char} (hv : trim v = v) :
    trim (' ' :: v) = v := by
  obtain ⟨hL, hR⟩ := trim_eq_self_parts hv
  unfold trim
  have h1 : trimL (' ' :: v) = trimL v :=
    List.dropWhile_cons_of_pos (by decide)
  rw [h1, hL, hR]

theorem trim_cons_ne_nil {c : Char} (hc : wsChar c = false) (l : List Char) :
    trim (c :: l) ≠ [] := by
  unfold trim
  rw [trimL_cons_of_neg hc]
  unfold trimR
  intro h
  have h' := congrArg List.reverse h
  rw [List.reverse_reverse] at h'
  simp only [List.reverse_nil] at h'
  have hall := List.dropWhile_eq_nil_iff.mp h'
  have hcmem : c ∈ (c :: l).reverse := by simp
  have := hall c hcmem
  simp [hc] at this

theorem isPrefixOf_append_self : ∀ (a x : List Char),
    a.isPrefixOf (a ++ x) = true
  | [], _ => by simp
  | c :: cs, x => by
    simp only [List.cons_append, List.isPrefixOf_cons₂_self]
    exact isPrefixOf_append_self cs x

theorem not_isPrefixOf_append (a : List Char) : ∀ (b v : List Char),
    a.isPrefixOf b = false → b.isPrefixOf a = false →
    a.isPrefixOf (b ++ v) = false := by
  induction a with
  | nil => intro b v h1 _; simp at h1
  | cons x xs ih =>
    intro b v h1 h2
    rcases b with _ | ⟨y, ys⟩
    · simp at h2
    · simp only [List.cons_append, List.isPrefixOf_cons₂] at h1 h2 ⊢
      by_cases hxy : x = y
      · subst hxy
        simp only [beq_self_eq_true, Bool.true_and] at h1 h2 ⊢
        exact ih ys v h1 h2
      · simp [hxy]

/-! ### Extraction of the value of a recognized `Key = Value` line -/

theorem splitCh_key_line {p v : List Char} (hp : '=' ∉ p) (hv : '=' ∉ v) :
    splitCh '=' (p ++ '=' :: (' ' :: v)) = [p, ' ' :: v] := by
  have hsv : '=' ∉ ' ' :: v := by
    intro hm
    rcases List.mem_cons.mp hm with h | h
    · exact absurd h (by decide)
    · exact hv h
  rw [splitCh_append_sep '=' p _ hp, splitCh_of_not_mem hsv]

theorem eqValueOrEmpty_key_line {p v : List Char} (hp : '=' ∉ p)
    (hv : '=' ∉ v) (htrim : trim v = v) :
    eqValueOrEmpty (p ++ '=' :: (' ' :: v)) = v := by
  unfold eqValueOrEmpty
  rw [splitCh_key_line hp hv]
  show trim (' ' :: v) = v
  exact trim_space_cons htrim

theorem eqValueOpt_key_line {p v : List Char} (hp : '=' ∉ p)
    (hv : '=' ∉ v) (htrim : trim v = v) :
    eqValueOpt (p ++ '=' :: (' ' :: v)) = some v := by
  unfold eqValueOpt
  rw [splitCh_key_line hp hv]
  show some (trim (' ' :: v)) = some v
  rw [trim_space_cons htrim]

theorem eqValueOrDefault_key_line {p v : List Char} (hp : '=' ∉ p)
    (hv : '=' ∉ v) (htrim : trim v = v) (hne : v ≠ []) :
    eqValueOrDefault (p ++ '=' :: (' ' :: v)) = v := by
  unfold eqValueOrDefault
  rw [splitCh_key_line hp hv]
  show (if trim (' ' :: v) = [] then "0.0.0.0/0".data else trim (' ' :: v)) = v
  rw [trim_space_cons htrim]
  simp [hne]

/-! ### Behaviour of the parsing loop body on each serialized line shape -/

theorem processLine_privateKey_line (cfg : WireGuardConfig) {v : List Char}
    (htrim : trim v = v) (hne : v ≠ []) (heq : '=' ∉ v) :
    processLine cfg ("PrivateKey = ".data ++ v) =
      { cfg with private_key := v } := by
  have htr : trim ("PrivateKey = ".data ++ v) = "PrivateKey = ".data ++ v :=
    trim_key_line (by decide) (by decide) htrim hne
  have hpos :
      ("PrivateKey =".data).isPrefixOf ("PrivateKey = ".data ++ v) = true := by
    have hd : "PrivateKey = ".data ++ v = "PrivateKey =".data ++ (' ' :: v) :=
      rfl
    rw [hd]
    exact isPrefixOf_append_self _ _
  have hval : eqValueOrEmpty ("PrivateKey = ".data ++ v) = v := by
    have hd : "PrivateKey = ".data ++ v =
        "PrivateKey ".data ++ '=' :: (' ' :: v) := rfl
    rw [hd]
    exact eqValueOrEmpty_key_line (by decide) heq htrim
  unfold processLine processTrimmed
  rw [htr]
  simp [hpos]
  exact hval

theorem processLine_publicKey_line (cfg : WireGuardConfig) {v : List Char}
    (htrim : trim v = v) (hne : v ≠ []) (heq : '=' ∉ v) :
    processLine cfg ("PublicKey = ".data ++ v) =
      { cfg with public_key := v } := by
  have htr : trim ("PublicKey = ".data ++ v) = "PublicKey = ".data ++ v :=
    trim_key_line (by decide) (by decide) htrim hne
  have h1 :
      ("PrivateKey =".data).isPrefixOf ("PublicKey = ".data ++ v) = false :=
    not_isPrefixOf_append _ _ _ (by decide) (by decide)
  have hpos :
      ("PublicKey =".data).isPrefixOf ("PublicKey = ".data ++ v) = true := by
    have hd : "PublicKey = ".data ++ v = "PublicKey =".data ++ (' ' :: v) := rfl
    rw [hd]
    exact isPrefixOf_append_self _ _
  have hval : eqValueOrEmpty ("PublicKey = ".data ++ v) = v := by
    have hd : "PublicKey = ".data ++ v =
        "PublicKey ".data ++ '=' :: (' ' :: v) := rfl
    rw [hd]
    exact eqValueOrEmpty_key_line (by decide) heq htrim
  unfold processLine processTrimmed
  rw [htr]
  simp [h1, hpos]
  exact hval

theorem processLine_endpoint_line (cfg : WireGuardConfig) {v : List Char}
    (htrim : trim v = v) (hne : v ≠ []) (heq : '=' ∉ v) :
    processLine cfg ("Endpoint = ".data ++ v) = { cfg with endpoint := v } := by
  have htr : trim ("Endpoint = ".data ++ v) = "Endpoint = ".data ++ v :=
    trim_key_line (by decide) (by decide) htrim hne
  have h1 :
      ("PrivateKey =".data).isPrefixOf ("Endpoint = ".data ++ v) = false :=
    not_isPrefixOf_append _ _ _ (by decide) (by decide)
  have h2 :
      ("PublicKey =".data).isPrefixOf ("Endpoint = ".data ++ v) = false :=
    not_isPrefixOf_append _ _ _ (by decide) (by decide)
  have hpos :
      ("Endpoint =".data).isPrefixOf ("Endpoint = ".data ++ v) = true := by
    have hd : "Endpoint = ".data ++ v = "Endpoint =".data ++ (' ' :: v) := rfl
    rw [hd]
    exact isPrefixOf_append_self _ _
  have hval : eqValueOrEmpty ("Endpoint = ".data ++ v) = v := by
    have hd : "Endpoint = ".data ++ v =
        "Endpoint ".data ++ '=' :: (' ' :: v) := rfl
    rw [hd]
    exact eqValueOrEmpty_key_line (by decide) heq htrim
  unfold processLine processTrimmed
  rw [htr]
  simp [h1, h2, hpos]
  exact hval

theorem processLine_address_line (cfg : WireGuardConfig) {v : List Char}
    (htrim : trim v = v) (hne : v ≠ []) (heq : '=' ∉ v) :
    processLine cfg ("Address = ".data ++ v) = { cfg with address := v } := by
  have htr : trim ("Address = ".data ++ v) = "Address = ".data ++ v :=
    trim_key_line (by decide) (by decide) htrim hne
  have h1 :
      ("PrivateKey =".data).isPrefixOf ("Address = ".data ++ v) = false :=
    not_isPrefixOf_append _ _ _ (by decide) (by decide)
  have h2 :
      ("PublicKey =".data).isPrefixOf ("Address = ".data ++ v) = false :=
    not_isPrefixOf_append _ _ _ (by decide) (by decide)
  have h3 : ("Endpoint =".data).isPrefixOf ("Address = ".data ++ v) = false :=
    not_isPrefixOf_append _ _ _ (by decide) (by decide)
  have hpos :
      ("Address =".data).isPrefixOf ("Address = ".data ++ v) = true := by
    have hd : "Address = ".data ++ v = "Address =".data ++ (' ' :: v) := rfl
    rw [hd]
    exact isPrefixOf_append_self _ _
  have hval : eqValueOrEmpty ("Address = ".data ++ v) = v := by
    have hd : "Address = ".data ++ v =
        "Address ".data ++ '=' :: (' ' :: v) := rfl
    rw [hd]
    exact eqValueOrEmpty_key_line (by decide) heq htrim
  unfold processLine processTrimmed
  rw [htr]
  simp [h1, h2, h3, hpos]
  exact hval

theorem processLine_dns_line (cfg : WireGuardConfig) {v : List Char}
    (htrim : trim v = v) (hne : v ≠ []) (heq : '=' ∉ v) :
    processLine cfg ("DNS = ".data ++ v) = { cfg with dns := some v } := by
  have htr : trim ("DNS = ".data ++ v) = "DNS = ".data ++ v :=
    trim_key_line (by decide) (by decide) htrim hne
  have h1 : ("PrivateKey =".data).isPrefixOf ("DNS = ".data ++ v) = false :=
    not_isPrefixOf_append _ _ _ (by decide) (by decide)
  have h2 : ("PublicKey =".data).isPrefixOf ("DNS = ".data ++ v) = false :=
    not_isPrefixOf_append _ _ _ (by decide) (by decide)
  have h3 : ("Endpoint =".data).isPrefixOf ("DNS = ".data ++ v) = false :=
    not_isPrefixOf_append _ _ _ (by decide) (by decide)
  have h4 : ("Address =".data).isPrefixOf ("DNS = ".data ++ v) = false :=
    not_isPrefixOf_append _ _ _ (by decide) (by decide)
  have hpos : ("DNS =".data).isPrefixOf ("DNS = ".data ++ v) = true := by
    have hd : "DNS = ".data ++ v = "DNS =".data ++ (' ' :: v) := rfl
    rw [hd]
    exact isPrefixOf_append_self _ _
  have hval : eqValueOpt ("DNS = ".data ++ v) = some v := by
    have hd : "DNS = ".data ++ v = "DNS ".data ++ '=' :: (' ' :: v) := rfl
    rw [hd]
    exact eqValueOpt_key_line (by decide) heq htrim
  unfold processLine processTrimmed
  rw [htr]
  simp [h1, h2, h3, h4, hpos]
  exact hval

theorem processLine_allowedIPs_line (cfg : WireGuardConfig) {v : List Char}
    (htrim : trim v = v) (hne : v ≠ []) (heq : '=' ∉ v) :
    processLine cfg ("AllowedIPs = ".data ++ v) =
      { cfg with allowed_ips := v } := by
  have htr : trim ("AllowedIPs = ".data ++ v) = "AllowedIPs = ".data ++ v :=
    trim_key_line (by decide) (by decide) htrim hne
  have h1 :
      ("PrivateKey =".data).isPrefixOf ("AllowedIPs = ".data ++ v) = false :=
    not_isPrefixOf_append _ _ _ (by decide) (by decide)
  have h2 :
      ("PublicKey =".data).isPrefixOf ("AllowedIPs = ".data ++ v) = false :=
    not_isPrefixOf_append _ _ _ (by decide) (by decide)
  have h3 :
      ("Endpoint =".data).isPrefixOf ("AllowedIPs = ".data ++ v) = false :=
    not_isPrefixOf_append _ _ _ (by decide) (by decide)
  have h4 :
      ("Address =".data).isPrefixOf ("AllowedIPs = ".data ++ v) = false :=
    not_isPrefixOf_append _ _ _ (by decide) (by decide)
  have h5 : ("DNS =".data).isPrefixOf ("AllowedIPs = ".data ++ v) = false :=
    not_isPrefixOf_append _ _ _ (by decide) (by decide)
  have hpos :
      ("AllowedIPs =".data).isPrefixOf ("AllowedIPs = ".data ++ v) = true := by
    have hd : "AllowedIPs = ".data ++ v = "AllowedIPs =".data ++ (' ' :: v) :=
      rfl
    rw [hd]
    exact isPrefixOf_append_self _ _
  have hval : eqValueOrDefault ("AllowedIPs = ".data ++ v) = v := by
    have hd : "AllowedIPs = ".data ++ v =
        "AllowedIPs ".data ++ '=' :: (' ' :: v) := rfl
    rw [hd]
    exact eqValueOrDefault_key_line (by decide) heq htrim hne
  unfold processLine processTrimmed
  rw [htr]
  simp [h1, h2, h3, h4, h5, hpos]
  exact hval

theorem processLine_keepalive_line (cfg : WireGuardConfig) {v : List Char}
    (htrim : trim v = v) (hne : v ≠ []) :
    processLine cfg ("PersistentKeepalive = ".data ++ v) = cfg := by
  have htr : trim ("PersistentKeepalive = ".data ++ v) =
      "PersistentKeepalive = ".data ++ v :=
    trim_key_line (by decide) (by decide) htrim hne
  have h1 : ("PrivateKey =".data).isPrefixOf
      ("PersistentKeepalive = ".data ++ v) = false :=
    not_isPrefixOf_append _ _ _ (by decide) (by decide)
  have h2 : ("PublicKey =".data).isPrefixOf
      ("PersistentKeepalive = ".data ++ v) = false :=
    not_isPrefixOf_append _ _ _ (by decide) (by decide)
  have h3 : ("Endpoint =".data).isPrefixOf
      ("PersistentKeepalive = ".data ++ v) = false :=
    not_isPrefixOf_append _ _ _ (by decide) (by decide)
  have h4 : ("Address =".data).isPrefixOf
      ("PersistentKeepalive = ".data ++ v) = false :=
    not_isPrefixOf_append _ _ _ (by decide) (by decide)
  have h5 : ("DNS =".data).isPrefixOf
      ("PersistentKeepalive = ".data ++ v) = false :=
    not_isPrefixOf_append _ _ _ (by decide) (by decide)
  have h6 : ("AllowedIPs =".data).isPrefixOf
      ("PersistentKeepalive = ".data ++ v) = false :=
    not_isPrefixOf_append _ _ _ (by decide) (by decide)
  unfold processLine processTrimmed
  rw [htr]
  simp [h1, h2, h3, h4, h5, h6]

theorem processLine_sectionInterface (cfg : WireGuardConfig) :
    processLine cfg "[Interface]".data = cfg := rfl

theorem processLine_sectionPeer (cfg : WireGuardConfig) :
    processLine cfg "[Peer]".data = cfg := rfl

/-! ### Digit rendering facts -/

theorem digitChar_not_ws : ∀ d, d < 10 → wsChar (Nat.digitChar d) = false := by
  decide

theorem digitChar_ne_newline : ∀ d, d < 10 → Nat.digitChar d ≠ '\n' := by
  decide

theorem natToCharsAux_all_digits (fuel : Nat) : ∀ (n : Nat),
    ∀ c ∈ natToCharsAux fuel n, ∃ d, d < 10 ∧ c = Nat.digitChar d := by
  induction fuel with
  | zero => intro n c hc; simp [natToCharsAux] at hc
  | succ f ih =>
    intro n c hc
    unfold natToCharsAux at hc
    split at hc
    · simp only [List.mem_singleton] at hc
      subst hc
      exact ⟨n, by omega, rfl⟩
    · rw [List.mem_append] at hc
      rcases hc with hc | hc
      · exact ih (n / 10) c hc
      · simp only [List.mem_singleton] at hc
        subst hc
        exact ⟨n % 10, Nat.mod_lt _ (by omega), rfl⟩

theorem natToChars_all_digits (n : Nat) :
    ∀ c ∈ natToChars n, ∃ d, d < 10 ∧ c = Nat.digitChar d :=
  natToCharsAux_all_digits (n + 1) n

theorem natToChars_ne_nil (n : Nat) : natToChars n ≠ [] := by
  unfold natToChars natToCharsAux
  split <;> simp

theorem trimL_of_all_not_ws {l : List Char}
    (h : ∀ c ∈ l, wsChar c = false) : trimL l = l := by
  rcases l with _ | ⟨c, cs⟩
  · rfl
  · exact trimL_cons_of_neg (h c (by simp))

theorem trim_of_all_not_ws {l : List Char}
    (h : ∀ c ∈ l, wsChar c = false) : trim l = l := by
  unfold trim
  rw [trimL_of_all_not_ws h]
  unfold trimR
  rw [trimL_of_all_not_ws (fun c hc => h c (List.mem_reverse.mp hc))]
  exact List.reverse_reverse l

theorem natToChars_trim (n : Nat) : trim (natToChars n) = natToChars n := by
  apply trim_of_all_not_ws
  intro c hc
  obtain ⟨d, hd, rfl⟩ := natToChars_all_digits n c hc
  exact digitChar_not_ws d hd

theorem natToChars_no_newline (n : Nat) : '\n' ∉ natToChars n := by
  intro hm
  obtain ⟨d, hd, hcd⟩ := natToChars_all_digits n '\n' hm
  exact digitChar_ne_newline d hd hcd.symm

/-! ### Invariance of untouched fields under the parsing loop -/

theorem processLine_keepalive_inv (cfg : WireGuardConfig) (l : List Char) :
    (processLine cfg l).persistent_keepalive = cfg.persistent_keepalive := by
  unfold processLine processTrimmed
  split_ifs <;> rfl

theorem processLine_name_inv (cfg : WireGuardConfig) (l : List Char) :
    (processLine cfg l).name = cfg.name := by
  unfold processLine processTrimmed
  split_ifs <;> rfl

theorem processLine_allowed_inv (cfg : WireGuardConfig) (l : List Char)
    (h : ("AllowedIPs =".data).isPrefixOf (trim l) = false) :
    (processLine cfg l).allowed_ips = cfg.allowed_ips := by
  unfold processLine processTrimmed
  split_ifs <;> first | rfl | simp_all

theorem foldl_keepalive_inv (lines : List (List Char)) :
    ∀ cfg : WireGuardConfig,
      (lines.foldl processLine cfg).persistent_keepalive =
        cfg.persistent_keepalive := by
  induction lines with
  | nil => intro cfg; rfl
  | cons l ls ih =>
    intro cfg
    rw [List.foldl_cons, ih, processLine_keepalive_inv]

theorem foldl_name_inv (lines : List (List Char)) :
    ∀ cfg : WireGuardConfig,
      (lines.foldl processLine cfg).name = cfg.name := by
  induction lines with
  | nil => intro cfg; rfl
  | cons l ls ih =>
    intro cfg
    rw [List.foldl_cons, ih, processLine_name_inv]

theorem foldl_allowed_inv (lines : List (List Char)) :
    ∀ cfg : WireGuardConfig,
      (∀ l ∈ lines, ("AllowedIPs =".data).isPrefixOf (trim l) = false) →
      (lines.foldl processLine cfg).allowed_ips = cfg.allowed_ips := by
  induction lines with
  | nil => intro cfg _; rfl
  | cons l ls ih =>
    intro cfg h
    rw [List.foldl_cons, ih _ (fun x hx => h x (List.mem_cons_of_mem _ hx)),
      processLine_allowed_inv _ _ (h l (List.mem_cons_self _ _))]

/-! ### Helper facts for the round-trip theorem -/

theorem no_newline_append {p v : List Char} (hp : '\n' ∉ p) (hv : '\n' ∉ v) :
    '\n' ∉ p ++ v := by
  intro hm
  rcases List.mem_append.mp hm with h | h
  · exact hp h
  · exact hv h

theorem isEmpty_eq_false_of_ne_nil {l : List Char} (h : l ≠ []) :
    l.isEmpty = false := by
  rcases l with _ | ⟨c, cs⟩
  · exact absurd rfl h
  · rfl

theorem trim_cons_isEmpty_false {c : Char} (hc : wsChar c = false)
    (l : List Char) : (trim (c :: l)).isEmpty = false :=
  isEmpty_eq_false_of_ne_nil (trim_cons_ne_nil hc l)

theorem handleApply_of_parsed (t : List Char)
    (h0 : (trim t).isEmpty = false)
    (h1 : (parsedOf t).private_key.isEmpty = false)
    (h2 : (parsedOf t).public_key.isEmpty = false)
    (h3 : (parsedOf t).endpoint.isEmpty = false) :
    handleApplyManualConfig t = .ok (parsedOf t) := by
  unfold handleApplyManualConfig
  rw [h0]
  simp [h1, h2, h3]

theorem parsedOf_serialize (nm pk pub ep ips addr : List Char)
    (dns : Option (List Char)) (ka : Option Nat)
    (hpk : CleanValue pk) (hpub : CleanValue pub) (hep : CleanValue ep)
    (haddr : CleanValue addr) (hips : CleanValue ips)
    (hdns : ∀ d, dns = some d → CleanValue d) :
    parsedOf (serialize ⟨nm, pk, pub, ep, ips, dns, addr, ka⟩) =
      ⟨"Manual Config".data, pk, pub, ep, ips, dns, addr, none⟩ := by
  obtain ⟨hpk1, hpk2, hpk3, hpk4⟩ := hpk
  obtain ⟨hpub1, hpub2, hpub3, hpub4⟩ := hpub
  obtain ⟨hep1, hep2, hep3, hep4⟩ := hep
  obtain ⟨haddr1, haddr2, haddr3, haddr4⟩ := haddr
  obtain ⟨hips1, hips2, hips3, hips4⟩ := hips
  rcases dns with _ | d <;> rcases ka with _ | n
  · have hlines : serializeLines ⟨nm, pk, pub, ep, ips, none, addr, none⟩ =
        ["[Interface]".data,
         "PrivateKey = ".data ++ pk,
         "Address = ".data ++ addr,
         "[Peer]".data,
         "PublicKey = ".data ++ pub,
         "Endpoint = ".data ++ ep,
         "AllowedIPs = ".data ++ ips] := rfl
    unfold parsedOf serialize
    rw [hlines,
      splitCh_joinLines_cons _ _ (by decide),
      splitCh_joinLines_cons _ _ (no_newline_append (by decide) hpk3),
      splitCh_joinLines_cons _ _ (no_newline_append (by decide) haddr3),
      splitCh_joinLines_cons _ _ (by decide),
      splitCh_joinLines_cons _ _ (no_newline_append (by decide) hpub3),
      splitCh_joinLines_cons _ _ (no_newline_append (by decide) hep3),
      splitCh_joinLines_single (no_newline_append (by decide) hips3)]
    simp only [List.foldl_cons, List.foldl_nil]
    rw [processLine_sectionInterface,
      processLine_privateKey_line _ hpk1 hpk2 hpk4,
      processLine_address_line _ haddr1 haddr2 haddr4,
      processLine_sectionPeer,
      processLine_publicKey_line _ hpub1 hpub2 hpub4,
      processLine_endpoint_line _ hep1 hep2 hep4,
      processLine_allowedIPs_line _ hips1 hips2 hips4]
    rfl
  · have hlines : serializeLines ⟨nm, pk, pub, ep, ips, none, addr, some n⟩ =
        ["[Interface]".data,
         "PrivateKey = ".data ++ pk,
         "Address = ".data ++ addr,
         "[Peer]".data,
         "PublicKey = ".data ++ pub,
         "Endpoint = ".data ++ ep,
         "AllowedIPs = ".data ++ ips,
         "PersistentKeepalive = ".data ++ natToChars n] := rfl
    unfold parsedOf serialize
    rw [hlines,
      splitCh_joinLines_cons _ _ (by decide),
      splitCh_joinLines_cons _ _ (no_newline_append (by decide) hpk3),
      splitCh_joinLines_cons _ _ (no_newline_append (by decide) haddr3),
      splitCh_joinLines_cons _ _ (by decide),
      splitCh_joinLines_cons _ _ (no_newline_append (by decide) hpub3),
      splitCh_joinLines_cons _ _ (no_newline_append (by decide) hep3),
      splitCh_joinLines_cons _ _ (no_newline_append (by decide) hips3),
      splitCh_joinLines_single
        (no_newline_append (by decide) (natToChars_no_newline n))]
    simp only [List.foldl_cons, List.foldl_nil]
    rw [processLine_sectionInterface,
      processLine_privateKey_line _ hpk1 hpk2 hpk4,
      processLine_address_line _ haddr1 haddr2 haddr4,
      processLine_sectionPeer,
      processLine_publicKey_line _ hpub1 hpub2 hpub4,
      processLine_endpoint_line _ hep1 hep2 hep4,
      processLine_allowedIPs_line _ hips1 hips2 hips4,
      processLine_keepalive_line _ (natToChars_trim n) (natToChars_ne_nil n)]
    rfl
  · obtain ⟨hd1, hd2, hd3, hd4⟩ := hdns d rfl
    have hlines : serializeLines ⟨nm, pk, pub, ep, ips, some d, addr, none⟩ =
        ["[Interface]".data,
         "PrivateKey = ".data ++ pk,
         "Address = ".data ++ addr,
         "DNS = ".data ++ d,
         "[Peer]".data,
         "PublicKey = ".data ++ pub,
         "Endpoint = ".data ++ ep,
         "AllowedIPs = ".data ++ ips] := rfl
    unfold parsedOf serialize
    rw [hlines,
      splitCh_joinLines_cons _ _ (by decide),
      splitCh_joinLines_cons _ _ (no_newline_append (by decide) hpk3),
      splitCh_joinLines_cons _ _ (no_newline_append (by decide) haddr3),
      splitCh_joinLines_cons _ _ (no_newline_append (by decide) hd3),
      splitCh_joinLines_cons _ _ (by decide),
      splitCh_joinLines_cons _ _ (no_newline_append (by decide) hpub3),
      splitCh_joinLines_cons _ _ (no_newline_append (by decide) hep3),
      splitCh_joinLines_single (no_newline_append (by decide) hips3)]
    simp only [List.foldl_cons, List.foldl_nil]
    rw [processLine_sectionInterface,
      processLine_privateKey_line _ hpk1 hpk2 hpk4,
      processLine_address_line _ haddr1 haddr2 haddr4,
      processLine_dns_line _ hd1 hd2 hd4,
      processLine_sectionPeer,
      processLine_publicKey_line _ hpub1 hpub2 hpub4,
      processLine_endpoint_line _ hep1 hep2 hep4,
      processLine_allowedIPs_line _ hips1 hips2 hips4]
    rfl
  · obtain ⟨hd1, hd2, hd3, hd4⟩ := hdns d rfl
    have hlines : serializeLines ⟨nm, pk, pub, ep, ips, some d, addr, some n⟩ =
        ["[Interface]".data,
         "PrivateKey = ".data ++ pk,
         "Address = ".data ++ addr,
         "DNS = ".data ++ d,
         "[Peer]".data,
         "PublicKey = ".data ++ pub,
         "Endpoint = ".data ++ ep,
         "AllowedIPs = ".data ++ ips,
         "PersistentKeepalive = ".data ++ natToChars n] := rfl
    unfold parsedOf serialize
    rw [hlines,
      splitCh_joinLines_cons _ _ (by decide),
      splitCh_joinLines_cons _ _ (no_newline_append (by decide) hpk3),
      splitCh_joinLines_cons _ _ (no_newline_append (by decide) haddr3),
      splitCh_joinLines_cons _ _ (no_newline_append (by decide) hd3),
      splitCh_joinLines_cons _ _ (by decide),
      splitCh_joinLines_cons _ _ (no_newline_append (by decide) hpub3),
      splitCh_joinLines_cons _ _ (no_newline_append (by decide) hep3),
      splitCh_joinLines_cons _ _ (no_newline_append (by decide) hips3),
      splitCh_joinLines_single
        (no_newline_append (by decide) (natToChars_no_newline n))]
    simp only [List.foldl_cons, List.foldl_nil]
    rw [processLine_sectionInterface,
      processLine_privateKey_line _ hpk1 hpk2 hpk4,
      processLine_address_line _ haddr1 haddr2 haddr4,
      processLine_dns_line _ hd1 hd2 hd4,
      processLine_sectionPeer,
      processLine_publicKey_line _ hpub1 hpub2 hpub4,
      processLine_endpoint_line _ hep1 hep2 hep4,
      processLine_allowedIPs_line _ hips1 hips2 hips4,
      processLine_keepalive_line _ (natToChars_trim n) (natToChars_ne_nil n)]
    rfl

/-! ### Truncation at a second equals sign inside a value -/

theorem trim_eq_of_parts {v1 v2 : List Char} (h2 : trim v1 = v1)
    (h3 : v1 ≠ []) (h4 : trim v2 = v2) :
    trim (v1 ++ '=' :: v2) = v1 ++ '=' :: v2 := by
  obtain ⟨hL1, hR1⟩ := trim_eq_self_parts h2
  obtain ⟨c, cs, hc, hcw⟩ := dropWhile_eq_self_head hL1 h3
  unfold trim
  have hLfull : trimL (v1 ++ '=' :: v2) = v1 ++ '=' :: v2 := by
    rw [hc, List.cons_append]
    exact trimL_cons_of_neg hcw
  rw [hLfull]
  by_cases hv2 : v2 = []
  · subst hv2
    exact trimR_append_last (by decide)
  · obtain ⟨hL2, hR2⟩ := trim_eq_self_parts h4
    obtain ⟨w, d, hw, hdw⟩ := trimR_eq_self_last hR2 hv2
    rw [hw]
    have hassoc : v1 ++ '=' :: (w ++ [d]) = (v1 ++ '=' :: w) ++ [d] := by simp
    rw [hassoc]
    exact trimR_append_last hdw

theorem splitCh_second_eq {p v1 v2 : List Char} (hp : '=' ∉ p)
    (h1 : '=' ∉ v1) :
    splitCh '=' (p ++ '=' :: (' ' :: (v1 ++ '=' :: v2))) =
      p :: (' ' :: v1) :: splitCh '=' v2 := by
  have hsv : '=' ∉ ' ' :: v1 := by
    intro hm
    rcases List.mem_cons.mp hm with h | h
    · exact absurd h (by decide)
    · exact h1 h
  rw [splitCh_append_sep '=' p _ hp]
  have hshape : (' ' :: (v1 ++ '=' :: v2)) = (' ' :: v1) ++ '=' :: v2 := by simp
  rw [hshape, splitCh_append_sep '=' (' ' :: v1) _ hsv]

theorem eqValueOrEmpty_second_eq {p v1 v2 : List Char} (hp : '=' ∉ p)
    (h1 : '=' ∉ v1) (h2 : trim v1 = v1) :
    eqValueOrEmpty (p ++ '=' :: (' ' :: (v1 ++ '=' :: v2))) = v1 := by
  unfold eqValueOrEmpty
  rw [splitCh_second_eq hp h1]
  show trim (' ' :: v1) = v1
  exact trim_space_cons h2

theorem eqValueOpt_second_eq {p v1 v2 : List Char} (hp : '=' ∉ p)
    (h1 : '=' ∉ v1) (h2 : trim v1 = v1) :
    eqValueOpt (p ++ '=' :: (' ' :: (v1 ++ '=' :: v2))) = some v1 := by
  unfold eqValueOpt
  rw [splitCh_second_eq hp h1]
  show some (trim (' ' :: v1)) = some v1
  rw [trim_space_cons h2]

theorem eqValueOrDefault_second_eq {p v1 v2 : List Char} (hp : '=' ∉ p)
    (h1 : '=' ∉ v1) (h2 : trim v1 = v1) (h3 : v1 ≠ []) :
    eqValueOrDefault (p ++ '=' :: (' ' :: (v1 ++ '=' :: v2))) = v1 := by
  unfold eqValueOrDefault
  rw [splitCh_second_eq hp h1]
  show (if trim (' ' :: v1) = [] then "0.0.0.0/0".data else trim (' ' :: v1))
      = v1
  rw [trim_space_cons h2]
  simp [h3]

theorem processLine_privateKey_trunc (cfg : WireGuardConfig)
    {v1 v2 : List Char} (h1 : '=' ∉ v1) (h2 : trim v1 = v1) (h3 : v1 ≠ [])
    (h4 : trim v2 = v2) :
    processLine cfg ("PrivateKey = ".data ++ (v1 ++ '=' :: v2)) =
      { cfg with private_key := v1 } := by
  have htr : trim ("PrivateKey = ".data ++ (v1 ++ '=' :: v2)) =
      "PrivateKey = ".data ++ (v1 ++ '=' :: v2) :=
    trim_key_line (by decide) (by decide) (trim_eq_of_parts h2 h3 h4)
      (by simp)
  have hpos : ("PrivateKey =".data).isPrefixOf
      ("PrivateKey = ".data ++ (v1 ++ '=' :: v2)) = true := by
    have hd : "PrivateKey = ".data ++ (v1 ++ '=' :: v2) =
        "PrivateKey =".data ++ (' ' :: (v1 ++ '=' :: v2)) := rfl
    rw [hd]
    exact isPrefixOf_append_self _ _
  have hval : eqValueOrEmpty ("PrivateKey = ".data ++ (v1 ++ '=' :: v2)) =
      v1 := by
    have hd : "PrivateKey = ".data ++ (v1 ++ '=' :: v2) =
        "PrivateKey ".data ++ '=' :: (' ' :: (v1 ++ '=' :: v2)) := rfl
    rw [hd]
    exact eqValueOrEmpty_second_eq (by decide) h1 h2
  unfold processLine processTrimmed
  rw [htr]
  simp [hpos]
  exact hval

theorem processLine_publicKey_trunc (cfg : WireGuardConfig)
    {v1 v2 : List Char} (h1 : '=' ∉ v1) (h2 : trim v1 = v1) (h3 : v1 ≠ [])
    (h4 : trim v2 = v2) :
    processLine cfg ("PublicKey = ".data ++ (v1 ++ '=' :: v2)) =
      { cfg with public_key := v1 } := by
  have htr : trim ("PublicKey = ".data ++ (v1 ++ '=' :: v2)) =
      "PublicKey = ".data ++ (v1 ++ '=' :: v2) :=
    trim_key_line (by decide) (by decide) (trim_eq_of_parts h2 h3 h4)
      (by simp)
  have hn1 : ("PrivateKey =".data).isPrefixOf
      ("PublicKey = ".data ++ (v1 ++ '=' :: v2)) = false :=
    not_isPrefixOf_append _ _ _ (by decide) (by decide)
  have hpos : ("PublicKey =".data).isPrefixOf
      ("PublicKey = ".data ++ (v1 ++ '=' :: v2)) = true := by
    have hd : "PublicKey = ".data ++ (v1 ++ '=' :: v2) =
        "PublicKey =".data ++ (' ' :: (v1 ++ '=' :: v2)) := rfl
    rw [hd]
    exact isPrefixOf_append_self _ _
  have hval : eqValueOrEmpty ("PublicKey = ".data ++ (v1 ++ '=' :: v2)) =
      v1 := by
    have hd : "PublicKey = ".data ++ (v1 ++ '=' :: v2) =
        "PublicKey ".data ++ '=' :: (' ' :: (v1 ++ '=' :: v2)) := rfl
    rw [hd]
    exact eqValueOrEmpty_second_eq (by decide) h1 h2
  unfold processLine processTrimmed
  rw [htr]
  simp [hn1, hpos]
  exact hval

theorem processLine_endpoint_trunc (cfg : WireGuardConfig)
    {v1 v2 : List Char} (h1 : '=' ∉ v1) (h2 : trim v1 = v1) (h3 : v1 ≠ [])
    (h4 : trim v2 = v2) :
    processLine cfg ("Endpoint = ".data ++ (v1 ++ '=' :: v2)) =
      { cfg with endpoint := v1 } := by
  have htr : trim ("Endpoint = ".data ++ (v1 ++ '=' :: v2)) =
      "Endpoint = ".data ++ (v1 ++ '=' :: v2) :=
    trim_key_line (by decide) (by decide) (trim_eq_of_parts h2 h3 h4)
      (by simp)
  have hn1 : ("PrivateKey =".data).isPrefixOf
      ("Endpoint = ".data ++ (v1 ++ '=' :: v2)) = false :=
    not_isPrefixOf_append _ _ _ (by decide) (by decide)
  have hn2 : ("PublicKey =".data).isPrefixOf
      ("Endpoint = ".data ++ (v1 ++ '=' :: v2)) = false :=
    not_isPrefixOf_append _ _ _ (by decide) (by decide)
  have hpos : ("Endpoint =".data).isPrefixOf
      ("Endpoint = ".data ++ (v1 ++ '=' :: v2)) = true := by
    have hd : "Endpoint = ".data ++ (v1 ++ '=' :: v2) =
        "Endpoint =".data ++ (' ' :: (v1 ++ '=' :: v2)) := rfl
    rw [hd]
    exact isPrefixOf_append_self _ _
  have hval : eqValueOrEmpty ("Endpoint = ".data ++ (v1 ++ '=' :: v2)) =
      v1 := by
    have hd : "Endpoint = ".data ++ (v1 ++ '=' :: v2) =
        "Endpoint ".data ++ '=' :: (' ' :: (v1 ++ '=' :: v2)) := rfl
    rw [hd]
    exact eqValueOrEmpty_second_eq (by decide) h1 h2
  unfold processLine processTrimmed
  rw [htr]
  simp [hn1, hn2, hpos]
  exact hval

theorem processLine_address_trunc (cfg : WireGuardConfig)
    {v1 v2 : List Char} (h1 : '=' ∉ v1) (h2 : trim v1 = v1) (h3 : v1 ≠ [])
    (h4 : trim v2 = v2) :
    processLine cfg ("Address = ".data ++ (v1 ++ '=' :: v2)) =
      { cfg with address := v1 } := by
  have htr : trim ("Address = ".data ++ (v1 ++ '=' :: v2)) =
      "Address = ".data ++ (v1 ++ '=' :: v2) :=
    trim_key_line (by decide) (by decide) (trim_eq_of_parts h2 h3 h4)
      (by simp)
  have hn1 : ("PrivateKey =".data).isPrefixOf
      ("Address = ".data ++ (v1 ++ '=' :: v2)) = false :=
    not_isPrefixOf_append _ _ _ (by decide) (by decide)
  have hn2 : ("PublicKey =".data).isPrefixOf
      ("Address = ".data ++ (v1 ++ '=' :: v2)) = false :=
    not_isPrefixOf_append _ _ _ (by decide) (by decide)
  have hn3 : ("Endpoint =".data).isPrefixOf
      ("Address = ".data ++ (v1 ++ '=' :: v2)) = false :=
    not_isPrefixOf_append _ _ _ (by decide) (by decide)
  have hpos : ("Address =".data).isPrefixOf
      ("Address = ".data ++ (v1 ++ '=' :: v2)) = true := by
    have hd : "Address = ".data ++ (v1 ++ '=' :: v2) =
        "Address =".data ++ (' ' :: (v1 ++ '=' :: v2)) := rfl
    rw [hd]
    exact isPrefixOf_append_self _ _
  have hval : eqValueOrEmpty ("Address = ".data ++ (v1 ++ '=' :: v2)) =
      v1 := by
    have hd : "Address = ".data ++ (v1 ++ '=' :: v2) =
        "Address ".data ++ '=' :: (' ' :: (v1 ++ '=' :: v2)) := rfl
    rw [hd]
    exact eqValueOrEmpty_second_eq (by decide) h1 h2
  unfold processLine processTrimmed
  rw [htr]
  simp [hn1, hn2, hn3, hpos]
  exact hval

theorem processLine_dns_trunc (cfg : WireGuardConfig)
    {v1 v2 : List Char} (h1 : '=' ∉ v1) (h2 : trim v1 = v1) (h3 : v1 ≠ [])
    (h4 : trim v2 = v2) :
    processLine cfg ("DNS = ".data ++ (v1 ++ '=' :: v2)) =
      { cfg with dns := some v1 } := by
  have htr : trim ("DNS = ".data ++ (v1 ++ '=' :: v2)) =
      "DNS = ".data ++ (v1 ++ '=' :: v2) :=
    trim_key_line (by decide) (by decide) (trim_eq_of_parts h2 h3 h4)
      (by simp)
  have hn1 : ("PrivateKey =".data).isPrefixOf
      ("DNS = ".data ++ (v1 ++ '=' :: v2)) = false :=
    not_isPrefixOf_append _ _ _ (by decide) (by decide)
  have hn2 : ("PublicKey =".data).isPrefixOf
      ("DNS = ".data ++ (v1 ++ '=' :: v2)) = false :=
    not_isPrefixOf_append _ _ _ (by decide) (by decide)
  have hn3 : ("Endpoint =".data).isPrefixOf
      ("DNS = ".data ++ (v1 ++ '=' :: v2)) = false :=
    not_isPrefixOf_append _ _ _ (by decide) (by decide)
  have hn4 : ("Address =".data).isPrefixOf
      ("DNS = ".data ++ (v1 ++ '=' :: v2)) = false :=
    not_isPrefixOf_append _ _ _ (by decide) (by decide)
  have hpos : ("DNS =".data).isPrefixOf
      ("DNS = ".data ++ (v1 ++ '=' :: v2)) = true := by
    have hd : "DNS = ".data ++ (v1 ++ '=' :: v2) =
        "DNS =".data ++ (' ' :: (v1 ++ '=' :: v2)) := rfl
    rw [hd]
    exact isPrefixOf_append_self _ _
  have hval : eqValueOpt ("DNS = ".data ++ (v1 ++ '=' :: v2)) = some v1 := by
    have hd : "DNS = ".data ++ (v1 ++ '=' :: v2) =
        "DNS ".data ++ '=' :: (' ' :: (v1 ++ '=' :: v2)) := rfl
    rw [hd]
    exact eqValueOpt_second_eq (by decide) h1 h2
  unfold processLine processTrimmed
  rw [htr]
  simp [hn1, hn2, hn3, hn4, hpos]
  exact hval

theorem processLine_allowedIPs_trunc (cfg : WireGuardConfig)
    {v1 v2 : List Char} (h1 : '=' ∉ v1) (h2 : trim v1 = v1) (h3 : v1 ≠ [])
    (h4 : trim v2 = v2) :
    processLine cfg ("AllowedIPs = ".data ++ (v1 ++ '=' :: v2)) =
      { cfg with allowed_ips := v1 } := by
  have htr : trim ("AllowedIPs = ".data ++ (v1 ++ '=' :: v2)) =
      "AllowedIPs = ".data ++ (v1 ++ '=' :: v2) :=
    trim_key_line (by decide) (by decide) (trim_eq_of_parts h2 h3 h4)
      (by simp)
  have hn1 : ("PrivateKey =".data).isPrefixOf
      ("AllowedIPs = ".data ++ (v1 ++ '=' :: v2)) = false :=
    not_isPrefixOf_append _ _ _ (by decide) (by decide)
  have hn2 : ("PublicKey =".data).isPrefixOf
      ("AllowedIPs = ".data ++ (v1 ++ '=' :: v2)) = false :=
    not_isPrefixOf_append _ _ _ (by decide) (by decide)
  have hn3 : ("Endpoint =".data).isPrefixOf
      ("AllowedIPs = ".data ++ (v1 ++ '=' :: v2)) = false :=
    not_isPrefixOf_append _ _ _ (by decide) (by decide)
  have hn4 : ("Address =".data).isPrefixOf
      ("AllowedIPs = ".data ++ (v1 ++ '=' :: v2)) = false :=
    not_isPrefixOf_append _ _ _ (by decide) (by decide)
  have hn5 : ("DNS =".data).isPrefixOf
      ("AllowedIPs = ".data ++ (v1 ++ '=' :: v2)) = false :=
    not_isPrefixOf_append _ _ _ (by decide) (by decide)
  have hpos : ("AllowedIPs =".data).isPrefixOf
      ("AllowedIPs = ".data ++ (v1 ++ '=' :: v2)) = true := by
    have hd : "AllowedIPs = ".data ++ (v1 ++ '=' :: v2) =
        "AllowedIPs =".data ++ (' ' :: (v1 ++ '=' :: v2)) := rfl
    rw [hd]
    exact isPrefixOf_append_self _ _
  have hval : eqValueOrDefault ("AllowedIPs = ".data ++ (v1 ++ '=' :: v2)) =
      v1 := by
    have hd : "AllowedIPs = ".data ++ (v1 ++ '=' :: v2) =
        "AllowedIPs ".data ++ '=' :: (' ' :: (v1 ++ '=' :: v2)) := rfl
    rw [hd]
    exact eqValueOrDefault_second_eq (by decide) h1 h2 h3
  unfold processLine processTrimmed
  rw [htr]
  simp [hn1, hn2, hn3, hn4, hn5, hpos]
  exact hval

/-! ### Claims -/

/-- Claim C1, counterexample: the initial status satisfies the spec §3
invariant, but the status that `handleConnect` writes from it (part_004
line 55) has `connected = true` with `interface` still `null`, violating the
invariant — the spread update never sets `interface`. -/
theorem c1_counterexample :
    statusInvariant initialConnectionStatus ∧
    ¬ statusInvariant (handleConnect initialConnectionStatus sampleConfig) := by
  decide

/-- Claim C1 (amended): `handleConnect` sets `connected := true` and
`current_config` to the selected config's name, and `handleDisconnect` sets
`connected := false` and clears `current_config`, but both leave the
`interface` field unchanged; hence the `current_config` half of the invariant
is re-established by each update while the `interface` half is not preserved. -/
theorem c1_amended (s : ConnectionStatus) (c : WireGuardConfig) :
    (handleConnect s c).connected = true ∧
    (handleConnect s c).current_config = some c.name ∧
    (handleConnect s c).interface = s.interface ∧
    (handleDisconnect s).connected = false ∧
    (handleDisconnect s).current_config = none ∧
    (handleDisconnect s).interface = s.interface :=
  ⟨rfl, rfl, rfl, rfl, rfl, rfl⟩

/-- Claim C2, counterexample: a text with non-empty `PrivateKey`, `PublicKey`
and `Endpoint` but no `Address` line is accepted by the manager with an empty
`address` — absence of `Address` is not a validation failure. -/
theorem c2_counterexample :
    handleApplyManualConfig c2Text = .ok c2Accepted ∧
    c2Accepted.address = [] := by
  decide

/-- Claim C2 (amended): every config accepted by `handleApplyManualConfig`
has non-empty `private_key`, `public_key` and `endpoint`; the `address` field
is not validated and may be empty. -/
theorem c2_amended (t : List Char) (c : WireGuardConfig)
    (h : handleApplyManualConfig t = .ok c) :
    c.private_key ≠ [] ∧ c.public_key ≠ [] ∧ c.endpoint ≠ [] := by
  simp only [handleApplyManualConfig] at h
  split at h
  · exact Except.noConfusion h
  · split at h
    · exact Except.noConfusion h
    · rename_i hcond
      injection h with h
      subst h
      refine ⟨fun hnil => hcond ?_, fun hnil => hcond ?_,
        fun hnil => hcond ?_⟩ <;> simp [hnil]

/-- Claim C2 witness: the accepted config of `c2Text` has the three required
fields non-empty. -/
theorem c2_amended_witness :
    c2Accepted.private_key ≠ [] ∧ c2Accepted.public_key ≠ [] ∧
    c2Accepted.endpoint ≠ [] :=
  c2_amended c2Text c2Accepted (by decide)

/-- Claim C3, counterexample: omitting `PrivateKey`, `PublicKey` or
`Endpoint` from an otherwise complete text yields one and the same generic
error message, which contains none of the three field names — there is no
`MissingField` error naming the omitted field. -/
theorem c3_counterexample :
    handleApplyManualConfig c3NoPrivText = .error invalidFormatError ∧
    handleApplyManualConfig c3NoPubText = .error invalidFormatError ∧
    handleApplyManualConfig c3NoEndText = .error invalidFormatError ∧
    containsSeg "PrivateKey".data invalidFormatError = false ∧
    containsSeg "PublicKey".data invalidFormatError = false ∧
    containsSeg "Endpoint".data invalidFormatError = false := by
  decide

/-- Claim C3 (amended): for each of `PrivateKey`, `PublicKey` and `Endpoint`
individually omitted from an otherwise complete input text, parsing is
rejected, but always with the single generic message of part_004 line 151
rather than an error naming the omitted field. -/
theorem c3_amended :
    handleApplyManualConfig c3NoPrivText = .error invalidFormatError ∧
    handleApplyManualConfig c3NoPubText = .error invalidFormatError ∧
    handleApplyManualConfig c3NoEndText = .error invalidFormatError := by
  decide

/-- Claim C4, counterexample: round-tripping a valid config through
serialize-then-parse renames it to "Manual Config", truncates a private key
containing a base64 `=` at that `=`, and drops the keepalive interval. -/
theorem c4_counterexample :
    (match handleApplyManualConfig (serialize sampleConfig) with
      | .ok c => c.name
      | .error _ => []) ≠ sampleConfig.name ∧
    (match handleApplyManualConfig (serialize c4TruncConfig) with
      | .ok c => c.private_key
      | .error _ => []) ≠ c4TruncConfig.private_key ∧
    (match handleApplyManualConfig (serialize c4KeepaliveConfig) with
      | .ok c => c.persistent_keepalive
      | .error _ => none) ≠ c4KeepaliveConfig.persistent_keepalive := by
  decide

/-- Claim C4 (amended): for a valid config whose written field values are
trim-invariant, non-empty, and free of `=` and newline characters,
`parse (serialize c)` succeeds and agrees with `c` on `private_key`,
`public_key`, `endpoint`, `address`, `allowed_ips` and `dns`; the parsed
`name` is always "Manual Config" and `persistent_keepalive` is always
dropped, so the round trip is not field-equal on those two fields. -/
theorem c4_amended (c : WireGuardConfig)
    (hpk : CleanValue c.private_key) (hpub : CleanValue c.public_key)
    (hep : CleanValue c.endpoint) (haddr : CleanValue c.address)
    (hips : CleanValue c.allowed_ips)
    (hdns : ∀ d, c.dns = some d → CleanValue d) :
    handleApplyManualConfig (serialize c) =
      .ok { c with
              name := "Manual Config".data
              persistent_keepalive := none } := by
  obtain ⟨nm, pk, pub, ep, ips, dns, addr, ka⟩ := c
  have hparsed :=
    parsedOf_serialize nm pk pub ep ips addr dns ka hpk hpub hep haddr hips
      hdns
  have h0 : (trim (serialize ⟨nm, pk, pub, ep, ips, dns, addr, ka⟩)).isEmpty
      = false :=
    trim_cons_isEmpty_false (by decide) _
  have h1 : (parsedOf
      (serialize ⟨nm, pk, pub, ep, ips, dns, addr, ka⟩)).private_key.isEmpty
      = false := by
    rw [hparsed]
    exact isEmpty_eq_false_of_ne_nil hpk.2.1
  have h2 : (parsedOf
      (serialize ⟨nm, pk, pub, ep, ips, dns, addr, ka⟩)).public_key.isEmpty
      = false := by
    rw [hparsed]
    exact isEmpty_eq_false_of_ne_nil hpub.2.1
  have h3 : (parsedOf
      (serialize ⟨nm, pk, pub, ep, ips, dns, addr, ka⟩)).endpoint.isEmpty
      = false := by
    rw [hparsed]
    exact isEmpty_eq_false_of_ne_nil hep.2.1
  rw [handleApply_of_parsed _ h0 h1 h2 h3, hparsed]

/-- Claim C4 witness: the amended round trip at a concrete valid config with
a keepalive interval. -/
theorem c4_amended_witness :
    handleApplyManualConfig (serialize c4WitnessConfig) =
      .ok { c4WitnessConfig with
              name := "Manual Config".data
              persistent_keepalive := none } :=
  c4_amended c4WitnessConfig (by decide) (by decide) (by decide) (by decide)
    (by decide) (fun _ hd => nomatch hd)

/-- Claim C5, counterexample: `disconnect` called with no tracked connection
returns the `"No active connection"` error (IMPLEMENTATION_GUIDE.md line 83),
not a success. -/
theorem c5_counterexample :
    disconnect stubPlatform none =
      (.error "No active connection".data, none) := rfl

/-- Claim C5 (amended): `disconnect()` while `Disconnected` is rejected with
the `"No active connection"` error rather than succeeding; the tracked
`ActiveConnection` stays absent, and a second call from that state returns
the same error again. -/
theorem c5_amended (p : WireGuardPlatform) :
    disconnect p none = (.error "No active connection".data, none) ∧
    disconnect p (disconnect p none).2 =
      (.error "No active connection".data, none) :=
  ⟨rfl, rfl⟩

/-- Claim C6, counterexample: after a successful apply of `cfgA`, applying
`cfgB` without disconnecting succeeds again (no `AlreadyConnected` error) and
silently replaces the tracked `ActiveConnection`. -/
theorem c6_counterexample :
    apply_config stubPlatform none cfgA =
      (.ok "Connected via if-A".data, some ("if-A".data, "A".data)) ∧
    apply_config stubPlatform (some ("if-A".data, "A".data)) cfgB =
      (.ok "Connected via if-B".data, some ("if-B".data, "B".data)) ∧
    some ("if-B".data, "B".data) ≠
      (some ("if-A".data, "A".data) : Option (List Char × List Char)) := by
  refine ⟨rfl, rfl, by decide⟩

/-- Claim C6 (amended): whenever the platform reports WireGuard installed and
brings the interface up, `apply_config` succeeds and overwrites the tracked
`ActiveConnection` with the new `(interface, config name)` pair, regardless
of any existing active connection — there is no `AlreadyConnected`
rejection. -/
theorem c6_amended (p : WireGuardPlatform)
    (active : Option (List Char × List Char)) (config : WireGuardConfig)
    (iface : List Char) (hinst : p.is_wireguard_installed = true)
    (happ : p.apply_config config = .ok iface) :
    apply_config p active config =
      (.ok ("Connected via ".data ++ iface), some (iface, config.name)) := by
  simp [apply_config, hinst, happ]

/-- Claim C6 witness: the amended no-rejection behaviour at a concrete
already-connected state. -/
theorem c6_amended_witness :
    apply_config stubPlatform (some ("if-A".data, "A".data)) cfgB =
      (.ok ("Connected via ".data ++ "if-B".data),
       some ("if-B".data, cfgB.name)) :=
  c6_amended stubPlatform (some ("if-A".data, "A".data)) cfgB "if-B".data rfl
    rfl

/-- Claim C7, counterexample: a full input containing a
`PersistentKeepalive = 25` line parses successfully, but the resulting
config's `persistent_keepalive` is `none` — the key is not recognized. -/
theorem c7_counterexample :
    handleApplyManualConfig c7Text = .ok c7Parsed ∧
    c7Parsed.persistent_keepalive = none := by
  decide

/-- Claim C7 (amended): the parser recognizes only the six keys `PrivateKey`,
`PublicKey`, `Endpoint`, `Address`, `DNS` and `AllowedIPs` (all six are
stored from `c7Text`); `PersistentKeepalive` is ignored as an unknown line,
so every accepted config has `persistent_keepalive = none`. -/
theorem c7_amended :
    (∀ t c, handleApplyManualConfig t = .ok c →
      c.persistent_keepalive = none) ∧
    handleApplyManualConfig c7Text = .ok c7Parsed := by
  constructor
  · intro t c h
    simp only [handleApplyManualConfig] at h
    split at h
    · exact Except.noConfusion h
    · split at h
      · exact Except.noConfusion h
      · injection h with h
        subst h
        unfold parsedOf
        rw [foldl_keepalive_inv]
        rfl
  · decide

/-- Claim C7 witness: the keepalive-erasure consequence at the concrete
accepted config of `c7Text`. -/
theorem c7_amended_witness : c7Parsed.persistent_keepalive = none :=
  c7_amended.1 c7Text c7Parsed (by decide)

/-- Claim C8, counterexample: the legacy App view (part_003 lines 207-214)
renders the first 20 characters of `private_key`, so the displayed output
contains private-key material and differs between two configs that differ
only in their private key. -/
theorem c8_counterexample :
    ("SECRETSECRETSECRETSE".data ++ "...".data) ∈
      configCardValues c8LegacyConfig ∧
    configCardValues c8LegacyConfig ≠ configCardValues c8LegacyConfig2 := by
  decide

/-- Claim C8 (amended): the current App's config-details view is independent
of `private_key` and the parse error messages are the two fixed strings that
mention no key material, but the legacy App view does display the first 20
characters of `private_key` followed by `"..."`. -/
theorem c8_amended :
    (∀ (c : WireGuardConfig) (k : List Char),
      configDetailsValues { c with private_key := k } =
        configDetailsValues c) ∧
    (∀ c : WireGuardConfigV0,
      (c.private_key.take 20 ++ "...".data) ∈ configCardValues c) ∧
    (∀ t e, handleApplyManualConfig t = .error e →
      e = emptyInputError ∨ e = invalidFormatError) := by
  refine ⟨fun c k => rfl, fun c => ?_, fun t e h => ?_⟩
  · simp [configCardValues]
  · simp only [handleApplyManualConfig] at h
    split at h
    · injection h with h
      exact Or.inl h.symm
    · split at h
      · injection h with h
        exact Or.inr h.symm
      · exact Except.noConfusion h

/-- Claim C8 witness: the error-message consequence at the blank input. -/
theorem c8_amended_witness :
    emptyInputError = emptyInputError ∨ emptyInputError = invalidFormatError :=
  c8_amended.2.2 [] emptyInputError rfl

/-- Claim C9: for every recognized key line whose value contains an `=`
(written as `v1 ++ '=' :: v2` with `v1` clean), the parser stores only the
trimmed text between the first and second `=` of the line, i.e. `v1`, for all
six recognized keys — and that stored value is a proper truncation of the
written value. -/
theorem c9_theorem (cfg : WireGuardConfig) (v1 v2 : List Char)
    (h1 : '=' ∉ v1) (h2 : trim v1 = v1) (h3 : v1 ≠ []) (h4 : trim v2 = v2) :
    (processLine cfg
      ("PrivateKey = ".data ++ (v1 ++ '=' :: v2))).private_key = v1 ∧
    (processLine cfg
      ("PublicKey = ".data ++ (v1 ++ '=' :: v2))).public_key = v1 ∧
    (processLine cfg
      ("Endpoint = ".data ++ (v1 ++ '=' :: v2))).endpoint = v1 ∧
    (processLine cfg
      ("Address = ".data ++ (v1 ++ '=' :: v2))).address = v1 ∧
    (processLine cfg
      ("DNS = ".data ++ (v1 ++ '=' :: v2))).dns = some v1 ∧
    (processLine cfg
      ("AllowedIPs = ".data ++ (v1 ++ '=' :: v2))).allowed_ips = v1 ∧
    v1 ++ '=' :: v2 ≠ v1 := by
  refine ⟨?_, ?_, ?_, ?_, ?_, ?_, ?_⟩
  · rw [processLine_privateKey_trunc cfg h1 h2 h3 h4]
  · rw [processLine_publicKey_trunc cfg h1 h2 h3 h4]
  · rw [processLine_endpoint_trunc cfg h1 h2 h3 h4]
  · rw [processLine_address_trunc cfg h1 h2 h3 h4]
  · rw [processLine_dns_trunc cfg h1 h2 h3 h4]
  · rw [processLine_allowedIPs_trunc cfg h1 h2 h3 h4]
  · intro he
    have hlen := congrArg List.length he
    rw [List.length_append, List.length_cons] at hlen
    omega

/-- Claim C9 witness: a `PrivateKey` line with value `abc=` stores only
`abc`. -/
theorem c9_witness :
    (processLine initialParsedConfig
      ("PrivateKey = ".data ++ ("abc".data ++ '=' :: []))).private_key =
      "abc".data :=
  (c9_theorem initialParsedConfig "abc".data [] (by decide) (by decide)
    (by decide) (by decide)).1

/-- Claim C10: the parser performs no syntactic validation — any non-blank
text whose extracted `PrivateKey`, `PublicKey` and `Endpoint` values are
non-empty is accepted as-is, whatever shape those values have; the accepted
config's name is always "Manual Config", and when no line starts with
`AllowedIPs =` the `allowed_ips` field keeps the default `0.0.0.0/0`. -/
theorem c10_theorem (t : List Char)
    (h0 : (trim t).isEmpty = false)
    (h1 : (parsedOf t).private_key.isEmpty = false)
    (h2 : (parsedOf t).public_key.isEmpty = false)
    (h3 : (parsedOf t).endpoint.isEmpty = false) :
    handleApplyManualConfig t = .ok (parsedOf t) ∧
    (parsedOf t).name = "Manual Config".data ∧
    ((∀ l ∈ splitCh '\n' t,
        ("AllowedIPs =".data).isPrefixOf (trim l) = false) →
      (parsedOf t).allowed_ips = "0.0.0.0/0".data) := by
  refine ⟨handleApply_of_parsed t h0 h1 h2 h3, ?_, ?_⟩
  · unfold parsedOf
    rw [foldl_name_inv]
    rfl
  · intro hall
    unfold parsedOf
    rw [foldl_allowed_inv _ _ hall]
    rfl

/-- Claim C10 witness: a text with a garbage endpoint and no `AllowedIPs`
line is accepted. -/
theorem c10_witness :
    handleApplyManualConfig c10Text = .ok (parsedOf c10Text) :=
  (c10_theorem c10Text (by decide) (by decide) (by decide) (by decide)).1
